import Mathlib

/-!
Verification of the HMA (Hull Moving Average) core of the victor-backend
repository: candle normalization (trading-session filter), the HMA
computation (calculateHMAFromCandles / calculateHMAForPoint / calculateWMA),
and the per-symbol candle cache with its orchestration entry point
(fetchAndCalculateHMA) and eviction (clearCache).

Modelling conventions:
- JavaScript floating-point numbers are modelled as exact rationals (ℚ);
  the claims under study concern which formula is applied where, not
  rounding error.
- JavaScript null is modelled by Option.none; a field that can hold either
  a number or null has type Option ℚ.
- Date objects are modelled by integer epoch milliseconds; the local
  wall-clock of the host is modelled by an explicit timezone offset in
  minutes (tz), so local minute-of-day of an epoch-seconds timestamp ts is
  ((ts.ediv 60 + tz).emod 1440).
- The process-wide Map cache is an association list with JS Map get/set/
  delete semantics; the state is passed explicitly.
- The external history fetch is modelled by its outcome, an
  Except String (List RawTuple) argument; the orchestration result records
  in a Boolean whether the fetch path was taken, so that "no external
  fetch was performed" is expressible.
- Summation loops that only accumulate a sum are rendered as Finset.range
  sums (ℚ addition is exact, so accumulation order is irrelevant).
-/

/-- Raw broker OHLCV tuple [ts, open, high, low, close, volume] as returned
by the history endpoint (epoch seconds timestamp). -/
structure RawTuple where
  ts : Int
  o : ℚ
  h : ℚ
  l : ℚ
  c : ℚ
  v : ℚ
deriving DecidableEq, Repr

/-- Candle record as built by convertAndFilterTradingHoursCandles
(the date field, derived from timestamp, is represented by totalMinutes). -/
structure Candle where
  timestamp : Int
  totalMinutes : Int
  o : ℚ
  high : ℚ
  low : ℚ
  close : ℚ
  volume : ℚ
deriving DecidableEq, Repr

/-- Point of the HMA data series: {timestamp, close, hma}. The hma field is
Option ℚ because the cache-served variant carries null at warm-up indices. -/
structure HMAPoint where
  timestamp : Int
  close : ℚ
  hma : Option ℚ
deriving DecidableEq, Repr

/-- Result object of calculateHMAFromCandles / fetchAndCalculateHMA. -/
structure HMAResult where
  period : Nat
  data : List HMAPoint
  currentHMA : Option ℚ
  lastUpdate : Int
deriving DecidableEq, Repr

/-- Cached candle: the normalized candle spread together with its hma field
(null below the warm-up boundary). -/
structure CandleH where
  base : Candle
  hma : Option ℚ
deriving DecidableEq, Repr

/-- Value stored in the candleCache map for one symbol. -/
structure CacheEntry where
  candles : List CandleH
  lastUpdate : Int
  symbol : String
  isLiveMonitoring : Bool
deriving DecidableEq, Repr

/-- The candleCache Map, as an association list keyed by symbol. -/
abbrev Cache := List (String × CacheEntry)

/-- HMA constants from the source. -/
def HMA_PERIOD : Nat := 55

def REQUIRED_CANDLES : Nat := 60

def MARKET_START_MINUTES : Int := 555

def MARKET_END_MINUTES : Int := 930

/-- Sum of the descending integer weights n, n-1, ..., 1 accumulated by the
WMA loops (weightSum1 / weightSum2 / weightSum / weightSum3). -/
def weightSumQ (n : Nat) : ℚ :=
  ∑ i in Finset.range n, ((n - i : Nat) : ℚ)

/-- Weighted numerator accumulated by the WMA loops: close at index-i gets
weight n-i, for i = 0, ..., n-1. Out-of-range accesses read 0 (they occur
only in branches the source guards away). -/
def wmaNum (closes : List ℚ) (index n : Nat) : ℚ :=
  ∑ i in Finset.range n, closes.getD (index - i) 0 * ((n - i : Nat) : ℚ)

/-- calculateWMA(data, index, period) from the source: 0 when
index < period - 1, else the weighted moving average ending at index. -/
def calculateWMA (closes : List ℚ) (index n : Nat) : ℚ :=
  if index < n - 1 then 0 else wmaNum closes index n / weightSumQ n

/-- calculateHMAForPoint(data, index, period) from the source: 0 before the
warm-up boundary, the raw 2*WMA(half) - WMA(period) value before the
smoothing threshold, and the sqrt(period)-point weighted smoothing of the
raw values at and beyond it. The continue-guard of the smoothing loop
(rawPos < 0) is kept as the if inside the sums. -/
def calculateHMAForPoint (closes : List ℚ) (index period : Nat) : ℚ :=
  if index < period - 1 then 0
  else
    let halfPeriod := period / 2
    let sqrtPeriod := Nat.sqrt period
    let wma1 := wmaNum closes index halfPeriod / weightSumQ halfPeriod
    let wma2 := wmaNum closes index period / weightSumQ period
    let rawHma := 2 * wma1 - wma2
    if index < period + sqrtPeriod - 2 then rawHma
    else
      let finalHma := ∑ i in Finset.range sqrtPeriod,
        if index - i < period - 1 then 0
        else
          (2 * calculateWMA closes (index - i) halfPeriod -
            calculateWMA closes (index - i) period) * ((sqrtPeriod - i : Nat) : ℚ)
      let weightSum3 := ∑ i in Finset.range sqrtPeriod,
        if index - i < period - 1 then 0 else ((sqrtPeriod - i : Nat) : ℚ)
      finalHma / weightSum3

/-- Closes of a candle list, as read by the WMA loops. -/
def closesOf (candles : List Candle) : List ℚ := candles.map (·.close)

/-- Error message thrown by calculateHMAFromCandles on short input. -/
def insufficientMsg : String :=
  "Insufficient data. Need at least 55 candles for HMA-55"

/-- Data series built by calculateHMAFromCandles: the candles mapped to
{timestamp, close, hma} with hma initialized to 0 and then, by the loop
starting at HMA_PERIOD - 1, set to calculateHMAForPoint (indices below the
loop start keep the initial 0; the loop reads only close fields, which the
assignments never change). -/
def hmaDataOf (candles : List Candle) : List HMAPoint :=
  candles.mapIdx fun i c =>
    { timestamp := c.timestamp
      close := c.close
      hma := some (if HMA_PERIOD - 1 ≤ i then
          calculateHMAForPoint (closesOf candles) i HMA_PERIOD else 0) }

/-- calculateHMAFromCandles(candles) from the source. The now argument
stands for the new Date() taken for lastUpdate; the JS or-with-0 on the
last point's hma is the getD 0. -/
def calculateHMAFromCandles (now : Int) (candles : List Candle) :
    Except String HMAResult :=
  if candles.length < HMA_PERIOD then .error insufficientMsg
  else
    let hmaData := hmaDataOf candles
    let currentHMA := ((hmaData.getLast?).bind (·.hma)).getD 0
    .ok { period := HMA_PERIOD, data := hmaData, currentHMA := some currentHMA,
          lastUpdate := now }

/-- Local minute-of-day of an epoch-seconds timestamp under timezone offset
tz (in minutes): getHours() * 60 + getMinutes() of new Date(ts * 1000). -/
def minuteOfDay (tz ts : Int) : Int := ((ts.ediv 60 + tz).emod 1440)

/-- Conversion step of convertAndFilterTradingHoursCandles: one raw tuple to
one candle record. -/
def convertCandle (tz : Int) (r : RawTuple) : Candle :=
  { timestamp := r.ts
    totalMinutes := minuteOfDay tz r.ts
    o := r.o
    high := r.h
    low := r.l
    close := r.c
    volume := r.v }

/-- Trading-hours predicate of the filter step (9:15 to 15:30 inclusive). -/
def inSession (c : Candle) : Bool :=
  MARKET_START_MINUTES ≤ c.totalMinutes && c.totalMinutes ≤ MARKET_END_MINUTES

/-- convertAndFilterTradingHoursCandles(historicalData) from the source:
map each raw tuple to a candle record, then keep the trading-session ones. -/
def convertAndFilterTradingHoursCandles (tz : Int) (historicalData : List RawTuple) :
    List Candle :=
  (historicalData.map (convertCandle tz)).filter inSession

/-- JS Map.get on the association-list cache (keys are unique in every
reachable state, so first-match lookup is Map lookup). -/
def cacheGet : Cache → String → Option CacheEntry
  | [], _ => none
  | p :: rest, s => if p.1 == s then some p.2 else cacheGet rest s

/-- JS Map.set on the association-list cache: replace the binding in place
when the key is present, append otherwise. -/
def cacheSet : Cache → String → CacheEntry → Cache
  | [], s, e => [(s, e)]
  | p :: rest, s, e => if p.1 == s then (s, e) :: rest else p :: cacheSet rest s e

/-- JS Map.delete on the association-list cache. -/
def cacheDelete (cache : Cache) (s : String) : Cache :=
  cache.filter fun p => p.1 != s

/-- clearCache(symbol) from the source: when symbol is truthy (non-empty),
delete its entry and return true; otherwise return false. The Boolean is
the function's return value, the Cache the updated map state. -/
def clearCache (cache : Cache) (symbol : String) : Cache × Bool :=
  if symbol ≠ "" then (cacheDelete cache symbol, true) else (cache, false)

/-- Outcome of one fetchAndCalculateHMA call: the returned (or thrown)
value, the cache state afterwards, and whether the external-fetch path was
taken (false exactly when the call was served from cache). -/
structure FetchOutcome where
  result : Except String HMAResult
  cache : Cache
  fetched : Bool
deriving Repr

/-- Result object built on a cache hit (the early return of
fetchAndCalculateHMA). -/
def cacheHitResult (cached : CacheEntry) : HMAResult :=
  { currentHMA := (cached.candles.getLast?).bind (·.hma)
    data := cached.candles.map fun c =>
      { timestamp := c.base.timestamp, close := c.base.close, hma := c.hma }
    period := HMA_PERIOD
    lastUpdate := cached.lastUpdate }

/-- Candles stored in the cache after a successful recompute: the
normalized candles with hma attached (null below the warm-up boundary,
the computed series value from there on). -/
def candlesWithHMA (candles : List Candle) (hmaConfig : HMAResult) : List CandleH :=
  candles.mapIdx fun index candle =>
    { base := candle
      hma := if HMA_PERIOD - 1 ≤ index then (hmaConfig.data[index]?).bind (·.hma)
             else none }

/-- Miss path of fetchAndCalculateHMA: fetch, validate, normalize,
validate again, compute, store. Every branch marks fetched := true because
the external fetch was attempted. -/
def fetchMissPath (tz now : Int) (fetchResult : Except String (List RawTuple))
    (symbol : String) (cache : Cache) : FetchOutcome :=
  match fetchResult with
  | .error e => { result := .error e, cache := cache, fetched := true }
  | .ok historicalData =>
    if historicalData.length = 0 then
      { result := .error ("No historical data available for " ++ symbol)
        cache := cache, fetched := true }
    else
      let candles := convertAndFilterTradingHoursCandles tz historicalData
      if candles.length < REQUIRED_CANDLES then
        { result := .error ("Insufficient data for HMA calculation. Need 60 candles, got "
            ++ toString candles.length)
          cache := cache, fetched := true }
      else
        match calculateHMAFromCandles now candles with
        | .error e => { result := .error e, cache := cache, fetched := true }
        | .ok hmaConfig =>
          { result := .ok hmaConfig
            cache := cacheSet cache symbol
              { candles := candlesWithHMA candles hmaConfig
                lastUpdate := now
                symbol := symbol
                isLiveMonitoring := false }
            fetched := true }

/-- fetchAndCalculateHMA(symbol, accessToken) from the source. The now
argument stands for the new Date() calls of the body (one synchronous
block); fetchResult is the outcome of the fetchHistoricalData await; tz is
the host timezone offset used by the normalizer. The cached early return
fires when the entry has at least REQUIRED_CANDLES candles and is younger
than 5 minutes. -/
def fetchAndCalculateHMA (tz now : Int) (fetchResult : Except String (List RawTuple))
    (symbol : String) (cache : Cache) : FetchOutcome :=
  match cacheGet cache symbol with
  | some cached =>
    if REQUIRED_CANDLES ≤ cached.candles.length ∧
        now - cached.lastUpdate < 5 * 60 * 1000 then
      { result := .ok (cacheHitResult cached), cache := cache, fetched := false }
    else fetchMissPath tz now fetchResult symbol cache
  | none => fetchMissPath tz now fetchResult symbol cache

/-- One operation against the module state, for the reachable-state
invariant: an HMA request or an eviction. -/
inductive CacheOp where
  | fetch (tz now : Int) (fetchResult : Except String (List RawTuple)) (symbol : String)
  | evict (symbol : String)

/-- Run a sequence of operations from a given cache state. -/
def runOps (cache : Cache) : List CacheOp → Cache
  | [] => cache
  | CacheOp.fetch tz now fr s :: rest =>
      runOps (fetchAndCalculateHMA tz now fr s cache).cache rest
  | CacheOp.evict s :: rest => runOps (clearCache cache s).1 rest

/-! Specification-side definitions: the formulas named by the claims
(weighted moving average, raw Hull value, 7-point smoothing, session
window), written from the spec's words for comparison with the code. -/

/-- WMA(idx, n) as worded by the spec: weighted average of closes at
idx, idx-1, ..., idx-n+1 with weights n, n-1, ..., 1, divided by
n*(n+1)/2. -/
def specWMA (closes : List ℚ) (idx n : Nat) : ℚ :=
  (∑ j in Finset.range n, closes.getD (idx - j) 0 * ((n - j : Nat) : ℚ)) /
    ((n : ℚ) * ((n : ℚ) + 1) / 2)

/-- rawHMA(idx) = 2*WMA(idx, 27) - WMA(idx, 55), as worded by the spec. -/
def rawHMA (closes : List ℚ) (idx : Nat) : ℚ :=
  2 * specWMA closes idx 27 - specWMA closes idx 55

/-- 7-point weighted moving average (weights 7, 6, ..., 1) of the rawHMA
values at indices idx, idx-1, ..., idx-6, as worded by the spec. -/
def smoothedHMA (closes : List ℚ) (idx : Nat) : ℚ :=
  (∑ j in Finset.range 7, rawHMA closes (idx - j) * ((7 - j : Nat) : ℚ)) / 28

/-! Arithmetic facts about the constants and the two shapes of
calculateHMAForPoint. -/

lemma sqrt55 : Nat.sqrt 55 = 7 := by
  have h1 : 7 ≤ Nat.sqrt 55 := Nat.le_sqrt.mpr (by norm_num)
  have h2 : Nat.sqrt 55 < 8 := Nat.sqrt_lt.mpr (by norm_num)
  omega

lemma weightSumQ_27 : weightSumQ 27 = 378 := by
  norm_num [weightSumQ, Finset.sum_range_succ]

lemma weightSumQ_55 : weightSumQ 55 = 1540 := by
  norm_num [weightSumQ, Finset.sum_range_succ]

lemma weightSumQ_7 : weightSumQ 7 = 28 := by
  norm_num [weightSumQ, Finset.sum_range_succ]

/-- Below the warm-up boundary the point value is 0. -/
lemma hmaPoint_warmup (closes : List ℚ) (index : Nat) (h : index < 54) :
    calculateHMAForPoint closes index 55 = 0 := by
  rw [calculateHMAForPoint, if_pos (by omega)]

/-- Between the warm-up boundary and the smoothing threshold the point
value is the unsmoothed raw Hull value. -/
lemma hmaPoint_raw (closes : List ℚ) (index : Nat) (h54 : 54 ≤ index) (h60 : index < 60) :
    calculateHMAForPoint closes index 55 = rawHMA closes index := by
  rw [calculateHMAForPoint]
  rw [if_neg (by omega)]
  simp only [sqrt55]
  rw [if_pos (by omega)]
  rw [rawHMA, specWMA, specWMA, weightSumQ_27, weightSumQ_55]
  norm_num [wmaNum]

/-- From the smoothing threshold on the point value is the 7-point weighted
smoothing of the raw Hull values. -/
lemma hmaPoint_smoothed (closes : List ℚ) (index : Nat) (h60 : 60 ≤ index) :
    calculateHMAForPoint closes index 55 = smoothedHMA closes index := by
  rw [calculateHMAForPoint]
  rw [if_neg (by omega)]
  simp only [sqrt55]
  rw [if_neg (by omega)]
  rw [smoothedHMA]
  have hterm : ∀ i ∈ Finset.range 7,
      (if index - i < 55 - 1 then 0
       else (2 * calculateWMA closes (index - i) (55 / 2) -
          calculateWMA closes (index - i) 55) * ((7 - i : Nat) : ℚ)) =
      rawHMA closes (index - i) * ((7 - i : Nat) : ℚ) := by
    intro i hi
    rw [Finset.mem_range] at hi
    rw [if_neg (by omega)]
    rw [calculateWMA, calculateWMA, if_neg (by omega), if_neg (by omega)]
    rw [rawHMA, specWMA, specWMA, weightSumQ_27, weightSumQ_55]
    norm_num [wmaNum]
  have hw : ∀ i ∈ Finset.range 7,
      (if index - i < 55 - 1 then 0 else ((7 - i : Nat) : ℚ)) = ((7 - i : Nat) : ℚ) := by
    intro i hi
    rw [Finset.mem_range] at hi
    rw [if_neg (by omega)]
  rw [Finset.sum_congr rfl hterm, Finset.sum_congr rfl hw]
  norm_num [Finset.sum_range_succ]

/-! Characterization of calculateHMAFromCandles on sufficient input. -/

lemma calculateHMAFromCandles_ok (now : Int) (candles : List Candle)
    (h : 55 ≤ candles.length) :
    calculateHMAFromCandles now candles =
      .ok { period := 55
            data := hmaDataOf candles
            currentHMA := some ((((hmaDataOf candles).getLast?).bind (·.hma)).getD 0)
            lastUpdate := now } := by
  rw [calculateHMAFromCandles, if_neg (by simp only [HMA_PERIOD]; omega)]
  rfl

lemma hmaDataOf_getElem? (candles : List Candle) (i : Nat) :
    (hmaDataOf candles)[i]? = candles[i]?.map fun c =>
      { timestamp := c.timestamp
        close := c.close
        hma := some (if 54 ≤ i then calculateHMAForPoint (closesOf candles) i 55 else 0) } := by
  rw [hmaDataOf, List.getElem?_mapIdx]
  rfl

lemma hmaDataOf_length (candles : List Candle) :
    (hmaDataOf candles).length = candles.length := by
  simp [hmaDataOf]

lemma hmaDataOf_getLast? (candles : List Candle) :
    (hmaDataOf candles).getLast? =
      (hmaDataOf candles)[candles.length - 1]? := by
  rw [List.getLast?_eq_getElem?, hmaDataOf_length]

/-- C1: for every candle sequence of length at least 55, the hma series of
computeHMA (calculateHMAFromCandles) is piecewise: 0 at every index below
54; the unsmoothed rawHMA value (2*WMA(idx, 27) - WMA(idx, 55), weights
descending from the window size, divided by the weight sum) for
54 <= i < 60; and the 7-point weighted moving average (weights 7..1) of
the rawHMA values at i, i-1, ..., i-6 for i >= 60. -/
theorem hma_series_piecewise (now : Int) (candles : List Candle)
    (h : 55 ≤ candles.length) :
    ∃ r, calculateHMAFromCandles now candles = .ok r ∧
      r.data.length = candles.length ∧
      ∀ i, i < candles.length →
        ((i < 54 → r.data[i]?.map HMAPoint.hma = some (some 0)) ∧
         (54 ≤ i → i < 60 →
            r.data[i]?.map HMAPoint.hma = some (some (rawHMA (closesOf candles) i))) ∧
         (60 ≤ i →
            r.data[i]?.map HMAPoint.hma = some (some (smoothedHMA (closesOf candles) i)))) := by
  refine ⟨_, calculateHMAFromCandles_ok now candles h, hmaDataOf_length candles, ?_⟩
  intro i hi
  have hget : candles[i]? = some (candles.get ⟨i, hi⟩) := List.getElem?_eq_getElem hi
  refine ⟨?_, ?_, ?_⟩
  · intro h54
    rw [hmaDataOf_getElem?, hget]
    simp only [Option.map_some']
    rw [if_neg (by omega)]
  · intro h54 h60
    rw [hmaDataOf_getElem?, hget]
    simp only [Option.map_some']
    rw [if_pos h54, hmaPoint_raw _ _ h54 h60]
  · intro h60
    rw [hmaDataOf_getElem?, hget]
    simp only [Option.map_some']
    rw [if_pos (by omega), hmaPoint_smoothed _ _ h60]

/-- C10: computeHMA preserves the input structure: on length >= 55 the
returned data has the input length, every point keeps the timestamp and
close of its input candle, and currentHMA equals the last point hma. -/
theorem compute_preserves_structure (now : Int) (candles : List Candle)
    (h : 55 ≤ candles.length) :
    ∃ r, calculateHMAFromCandles now candles = .ok r ∧
      r.data.length = candles.length ∧
      (∀ i, i < candles.length →
        r.data[i]?.map HMAPoint.timestamp = candles[i]?.map Candle.timestamp ∧
        r.data[i]?.map HMAPoint.close = candles[i]?.map Candle.close) ∧
      r.currentHMA = r.data.getLast?.bind HMAPoint.hma := by
  refine ⟨_, calculateHMAFromCandles_ok now candles h, hmaDataOf_length candles, ?_, ?_⟩
  · intro i hi
    have hget : candles[i]? = some (candles.get ⟨i, hi⟩) := List.getElem?_eq_getElem hi
    rw [hmaDataOf_getElem?, hget]
    exact ⟨rfl, rfl⟩
  · have hne : candles ≠ [] := by
      intro hc; rw [hc] at h; simp at h
    have hlt : candles.length - 1 < candles.length := by
      cases candles with
      | nil => exact absurd rfl hne
      | cons a l => simp
    have hget : candles[candles.length - 1]? = some (candles.get ⟨candles.length - 1, hlt⟩) :=
      List.getElem?_eq_getElem hlt
    rw [hmaDataOf_getLast? candles, hmaDataOf_getElem?, hget]
    simp only [Option.map_some', Option.bind_some]
    rfl

/-! Facts about the all-zero close sequence, used to exhibit a 55-candle
input whose only computable HMA point is itself zero. -/

lemma getD_replicate_zero (n j : Nat) : (List.replicate n (0 : ℚ)).getD j 0 = 0 := by
  rw [List.getD_eq_getElem?_getD, List.getElem?_replicate]
  split <;> rfl

lemma specWMA_zero (n idx m : Nat) : specWMA (List.replicate n 0) idx m = 0 := by
  rw [specWMA]
  rw [Finset.sum_eq_zero fun i _ => by rw [getD_replicate_zero]; ring]
  exact zero_div _

lemma rawHMA_zero (n idx : Nat) : rawHMA (List.replicate n 0) idx = 0 := by
  rw [rawHMA, specWMA_zero, specWMA_zero]
  ring

lemma smoothedHMA_zero (n idx : Nat) : smoothedHMA (List.replicate n 0) idx = 0 := by
  rw [smoothedHMA]
  rw [Finset.sum_eq_zero fun i _ => by rw [rawHMA_zero]; ring]
  exact zero_div _

lemma hmaPoint_zero (n idx : Nat) :
    calculateHMAForPoint (List.replicate n (0 : ℚ)) idx 55 = 0 := by
  rcases Nat.lt_or_ge idx 54 with h | h
  · exact hmaPoint_warmup _ _ h
  rcases Nat.lt_or_ge idx 60 with h60 | h60
  · rw [hmaPoint_raw _ _ h h60, rawHMA_zero]
  · rw [hmaPoint_smoothed _ _ h60, smoothedHMA_zero]

/-- All-zero candle used for concrete instances. -/
def zeroCandle : Candle :=
  { timestamp := 0, totalMinutes := 555, o := 0, high := 0, low := 0, close := 0, volume := 0 }

lemma closesOf_replicate_zero (n : Nat) :
    closesOf (List.replicate n zeroCandle) = List.replicate n 0 := by
  rw [closesOf, List.map_replicate]
  rfl

/-- C3 counterexample: with exactly 55 candles whose closes are all 0 the
computation succeeds but every hma value (index 54 included) is 0, so the
data contains no non-zero hma point at all; the claim that exactly 55
candles always yield exactly one non-zero point (at index 54) is false at
this input. -/
theorem insufficient_gate_counterexample :
    ∃ r, calculateHMAFromCandles 0 (List.replicate 55 zeroCandle) = .ok r ∧
      r.data.length = 55 ∧ ∀ p ∈ r.data, p.hma = some 0 := by
  refine ⟨_, calculateHMAFromCandles_ok 0 _ (by simp), ?_, ?_⟩
  · rw [hmaDataOf_length, List.length_replicate]
  · intro p hp
    rw [hmaDataOf] at hp
    rw [List.mem_mapIdx] at hp
    obtain ⟨i, hi, rfl⟩ := hp
    simp only [closesOf_replicate_zero]
    have : calculateHMAForPoint (List.replicate 55 (0 : ℚ)) i HMA_PERIOD = 0 := hmaPoint_zero 55 i
    rw [this]
    split <;> rfl

/-- C3 amended: computeHMA with fewer than 55 candles always fails with the
insufficient-data error; with exactly 55 candles it succeeds, every index
other than 54 carries hma 0, and index 54 carries the unsmoothed
rawHMA(54) value, so index 54 is the only index that can hold a non-zero
point (and does iff rawHMA(54) is non-zero). -/
theorem insufficient_data_gate (now : Int) (candles : List Candle) :
    (candles.length < 55 → calculateHMAFromCandles now candles = .error insufficientMsg) ∧
    (candles.length = 55 →
      ∃ r, calculateHMAFromCandles now candles = .ok r ∧
        r.data.length = 55 ∧
        (∀ i, i < 55 → i ≠ 54 → r.data[i]?.map HMAPoint.hma = some (some 0)) ∧
        r.data[54]?.map HMAPoint.hma = some (some (rawHMA (closesOf candles) 54))) := by
  constructor
  · intro hlen
    rw [calculateHMAFromCandles, if_pos (by simp only [HMA_PERIOD]; omega)]
  · intro hlen
    refine ⟨_, calculateHMAFromCandles_ok now candles (by omega), ?_, ?_, ?_⟩
    · rw [hmaDataOf_length, hlen]
    · intro i hi hne
      have hget : candles[i]? = some (candles.get ⟨i, by omega⟩) :=
        List.getElem?_eq_getElem (by omega)
      rw [hmaDataOf_getElem?, hget]
      simp only [Option.map_some']
      rw [if_neg (by omega)]
    · have hget : candles[54]? = some (candles.get ⟨54, by omega⟩) :=
        List.getElem?_eq_getElem (by omega)
      rw [hmaDataOf_getElem?, hget]
      simp only [Option.map_some']
      rw [if_pos (by omega), hmaPoint_raw _ _ (by omega) (by omega)]

/-- C1 witness: the piecewise shape at a concrete 61-candle input, long
enough that all three regimes (warm-up, raw, smoothed) occur. -/
theorem hma_series_piecewise_witness :
    ∃ r, calculateHMAFromCandles 0 (List.replicate 61 zeroCandle) = .ok r ∧
      r.data.length = (List.replicate 61 zeroCandle).length ∧
      ∀ i, i < (List.replicate 61 zeroCandle).length →
        ((i < 54 → r.data[i]?.map HMAPoint.hma = some (some 0)) ∧
         (54 ≤ i → i < 60 →
            r.data[i]?.map HMAPoint.hma =
              some (some (rawHMA (closesOf (List.replicate 61 zeroCandle)) i))) ∧
         (60 ≤ i →
            r.data[i]?.map HMAPoint.hma =
              some (some (smoothedHMA (closesOf (List.replicate 61 zeroCandle)) i)))) :=
  hma_series_piecewise 0 (List.replicate 61 zeroCandle) (by simp)

/-- C10 witness: structure preservation at a concrete 55-candle input. -/
theorem compute_preserves_structure_witness :
    ∃ r, calculateHMAFromCandles 7 (List.replicate 55 zeroCandle) = .ok r ∧
      r.data.length = (List.replicate 55 zeroCandle).length ∧
      (∀ i, i < (List.replicate 55 zeroCandle).length →
        r.data[i]?.map HMAPoint.timestamp =
          (List.replicate 55 zeroCandle)[i]?.map Candle.timestamp ∧
        r.data[i]?.map HMAPoint.close =
          (List.replicate 55 zeroCandle)[i]?.map Candle.close) ∧
      r.currentHMA = r.data.getLast?.bind HMAPoint.hma :=
  compute_preserves_structure 7 (List.replicate 55 zeroCandle) (by simp)

/-- C3 witness: the gate fires at a concrete 54-candle input. -/
theorem insufficient_data_gate_witness :
    calculateHMAFromCandles 0 (List.replicate 54 zeroCandle) = .error insufficientMsg :=
  (insufficient_data_gate 0 (List.replicate 54 zeroCandle)).1 (by simp)

/-! Association-list lemmas for the cache primitives. -/

lemma cacheGet_nil (s : String) : cacheGet [] s = none := rfl

lemma cacheGet_set_self (c : Cache) (s : String) (e : CacheEntry) :
    cacheGet (cacheSet c s e) s = some e := by
  induction c with
  | nil => simp [cacheSet, cacheGet]
  | cons p rest ih =>
    rw [cacheSet]
    by_cases hp : p.1 == s
    · rw [if_pos hp, cacheGet, if_pos (by simp)]
    · rw [if_neg hp, cacheGet, if_neg hp]
      exact ih

lemma cacheGet_set_other (c : Cache) (s t : String) (e : CacheEntry) (h : t ≠ s) :
    cacheGet (cacheSet c s e) t = cacheGet c t := by
  induction c with
  | nil =>
    simp only [cacheSet, cacheGet]
    rw [if_neg (by simp [beq_iff_eq]; exact fun hst => h hst.symm)]
  | cons p rest ih =>
    rw [cacheSet]
    by_cases hp : p.1 == s
    · rw [if_pos hp, cacheGet, cacheGet]
      have hps : p.1 = s := by simpa [beq_iff_eq] using hp
      rw [if_neg (by simp [beq_iff_eq]; exact fun hst => h hst.symm),
          if_neg (by simp [beq_iff_eq, hps]; exact fun hst => h hst.symm)]
    · rw [if_neg hp, cacheGet, cacheGet]
      by_cases hpt : p.1 == t
      · rw [if_pos hpt, if_pos hpt]
      · rw [if_neg hpt, if_neg hpt]
        exact ih

lemma cacheGet_delete_self (c : Cache) (s : String) :
    cacheGet (cacheDelete c s) s = none := by
  induction c with
  | nil => rfl
  | cons p rest ih =>
    rw [cacheDelete, List.filter_cons]
    by_cases hp : p.1 == s
    · rw [if_neg (by simp [bne, hp])]
      exact ih
    · rw [if_pos (by simp [bne, hp])]
      rw [cacheGet, if_neg hp]
      exact ih

lemma cacheGet_delete_other (c : Cache) (s t : String) (h : t ≠ s) :
    cacheGet (cacheDelete c s) t = cacheGet c t := by
  induction c with
  | nil => rfl
  | cons p rest ih =>
    rw [cacheDelete, List.filter_cons]
    by_cases hp : p.1 == s
    · have hps : p.1 = s := by simpa [beq_iff_eq] using hp
      rw [if_neg (by simp [bne, hp])]
      rw [cacheGet, if_neg (by simp [beq_iff_eq, hps]; exact fun hst => h hst.symm)]
      exact ih
    · rw [if_pos (by simp [bne, hp])]
      rw [cacheGet, cacheGet]
      by_cases hpt : p.1 == t
      · rw [if_pos hpt, if_pos hpt]
      · rw [if_neg hpt, if_neg hpt]
        exact ih

/-! Path lemmas for fetchAndCalculateHMA. -/

lemma fetchMissPath_fetched (tz now : Int) (fr : Except String (List RawTuple))
    (s : String) (c : Cache) : (fetchMissPath tz now fr s c).fetched = true := by
  rcases fr with e | l
  · rfl
  · rw [fetchMissPath]
    dsimp only
    split
    · rfl
    · split
      · rfl
      · split <;> rfl

lemma fetch_on_miss (tz now : Int) (fr : Except String (List RawTuple)) (s : String)
    (c : Cache) (h : cacheGet c s = none) :
    fetchAndCalculateHMA tz now fr s c = fetchMissPath tz now fr s c := by
  rw [fetchAndCalculateHMA, h]

lemma fetch_on_stale (tz now : Int) (fr : Except String (List RawTuple)) (s : String)
    (c : Cache) (e : CacheEntry) (hsome : cacheGet c s = some e)
    (hcond : ¬(REQUIRED_CANDLES ≤ e.candles.length ∧ now - e.lastUpdate < 5 * 60 * 1000)) :
    fetchAndCalculateHMA tz now fr s c = fetchMissPath tz now fr s c := by
  rw [fetchAndCalculateHMA, hsome]
  exact if_neg hcond

lemma fetch_on_hit (tz now : Int) (fr : Except String (List RawTuple)) (s : String)
    (c : Cache) (e : CacheEntry) (hsome : cacheGet c s = some e)
    (hlen : REQUIRED_CANDLES ≤ e.candles.length)
    (hfresh : now - e.lastUpdate < 5 * 60 * 1000) :
    fetchAndCalculateHMA tz now fr s c =
      { result := .ok (cacheHitResult e), cache := c, fetched := false } := by
  rw [fetchAndCalculateHMA, hsome]
  exact if_pos ⟨hlen, hfresh⟩

lemma fetchMissPath_fetchError (tz now : Int) (e : String) (s : String) (c : Cache) :
    fetchMissPath tz now (.error e) s c =
      { result := .error e, cache := c, fetched := true } := rfl

lemma fetchMissPath_noData (tz now : Int) (s : String) (c : Cache) :
    fetchMissPath tz now (.ok []) s c =
      { result := .error ("No historical data available for " ++ s)
        cache := c, fetched := true } := rfl

lemma fetchMissPath_tooFew (tz now : Int) (raw : List RawTuple) (s : String) (c : Cache)
    (hne : raw ≠ [])
    (hlen : (convertAndFilterTradingHoursCandles tz raw).length < REQUIRED_CANDLES) :
    fetchMissPath tz now (.ok raw) s c =
      { result := .error ("Insufficient data for HMA calculation. Need 60 candles, got "
          ++ toString (convertAndFilterTradingHoursCandles tz raw).length)
        cache := c, fetched := true } := by
  rw [fetchMissPath]
  dsimp only
  rw [if_neg (by simpa [List.length_eq_zero] using hne), if_pos hlen]

lemma fetchMissPath_success (tz now : Int) (raw : List RawTuple) (s : String) (c : Cache)
    (hne : raw ≠ [])
    (hlen : REQUIRED_CANDLES ≤ (convertAndFilterTradingHoursCandles tz raw).length) :
    ∃ hmaConfig,
      calculateHMAFromCandles now (convertAndFilterTradingHoursCandles tz raw) =
        .ok hmaConfig ∧
      fetchMissPath tz now (.ok raw) s c =
        { result := .ok hmaConfig
          cache := cacheSet c s
            { candles := candlesWithHMA (convertAndFilterTradingHoursCandles tz raw) hmaConfig
              lastUpdate := now
              symbol := s
              isLiveMonitoring := false }
          fetched := true } := by
  have h55 : 55 ≤ (convertAndFilterTradingHoursCandles tz raw).length := by
    simp only [REQUIRED_CANDLES] at hlen
    omega
  refine ⟨_, calculateHMAFromCandles_ok now _ h55, ?_⟩
  rw [fetchMissPath]
  dsimp only
  rw [if_neg (by simpa [List.length_eq_zero] using hne),
      if_neg (by omega),
      calculateHMAFromCandles_ok now _ h55]

/-! Characterization of the stored entry and of the cache-served result. -/

lemma candlesWithHMA_length (candles : List Candle) (cfg : HMAResult) :
    (candlesWithHMA candles cfg).length = candles.length := by
  simp [candlesWithHMA]

lemma candlesWithHMA_getElem? (candles : List Candle) (cfg : HMAResult) (i : Nat) :
    (candlesWithHMA candles cfg)[i]? = candles[i]?.map fun c =>
      { base := c
        hma := if 54 ≤ i then (cfg.data[i]?).bind HMAPoint.hma else none } := by
  rw [candlesWithHMA, List.getElem?_mapIdx]
  rfl

lemma candlesWithHMA_closes (candles : List Candle) (cfg : HMAResult) :
    (candlesWithHMA candles cfg).map (fun c => c.base.close) = closesOf candles := by
  apply List.ext_getElem?
  intro i
  rw [List.getElem?_map, candlesWithHMA_getElem?, closesOf, List.getElem?_map,
      Option.map_map]
  rfl

lemma cacheHitResult_data_getElem? (e : CacheEntry) (i : Nat) :
    (cacheHitResult e).data[i]? = e.candles[i]?.map fun c =>
      { timestamp := c.base.timestamp, close := c.base.close, hma := c.hma } := by
  rw [cacheHitResult, List.getElem?_map]

/-- Round-trip lemma: a successful populate followed by a fresh read is
served from cache with the stated relation between the two results. -/
lemma cache_roundtrip_spec (tz t1 now2 : Int) (raw : List RawTuple) (s : String)
    (cache0 : Cache) (fr2 : Except String (List RawTuple))
    (hmiss : cacheGet cache0 s = none)
    (hne : raw ≠ [])
    (hlen : 60 ≤ (convertAndFilterTradingHoursCandles tz raw).length)
    (hfresh : now2 - t1 < 5 * 60 * 1000) :
    ∃ r1 r2,
      (fetchAndCalculateHMA tz t1 (.ok raw) s cache0).result = .ok r1 ∧
      (fetchAndCalculateHMA tz t1 (.ok raw) s cache0).fetched = true ∧
      fetchAndCalculateHMA tz now2 fr2 s (fetchAndCalculateHMA tz t1 (.ok raw) s cache0).cache =
        { result := .ok r2
          cache := (fetchAndCalculateHMA tz t1 (.ok raw) s cache0).cache
          fetched := false } ∧
      r1.data.length = (convertAndFilterTradingHoursCandles tz raw).length ∧
      r2.period = r1.period ∧
      r2.currentHMA = r1.currentHMA ∧
      r2.data.length = r1.data.length ∧
      (∀ i : Nat, r2.data[i]?.map HMAPoint.timestamp = r1.data[i]?.map HMAPoint.timestamp) ∧
      (∀ i : Nat, r2.data[i]?.map HMAPoint.close = r1.data[i]?.map HMAPoint.close) ∧
      (∀ i : Nat, 54 ≤ i → r2.data[i]?.map HMAPoint.hma = r1.data[i]?.map HMAPoint.hma) ∧
      (∀ i : Nat, i < 54 → i < r1.data.length →
        r2.data[i]?.map HMAPoint.hma = some none ∧
        r1.data[i]?.map HMAPoint.hma = some (some 0)) := by
  have h55 : 55 ≤ (convertAndFilterTradingHoursCandles tz raw).length := by omega
  obtain ⟨cfg, hcfg, hmp⟩ := fetchMissPath_success tz t1 raw s cache0 hne
    (by simpa [REQUIRED_CANDLES] using hlen)
  have hcfgE : cfg =
      { period := 55
        data := hmaDataOf (convertAndFilterTradingHoursCandles tz raw)
        currentHMA := some ((((hmaDataOf (convertAndFilterTradingHoursCandles tz raw)).getLast?).bind
          (·.hma)).getD 0)
        lastUpdate := t1 } := by
    have h2 := calculateHMAFromCandles_ok t1 (convertAndFilterTradingHoursCandles tz raw) h55
    rw [hcfg] at h2
    exact Except.ok.inj h2
  set candles := convertAndFilterTradingHoursCandles tz raw with hcand
  set E : CacheEntry :=
    { candles := candlesWithHMA candles cfg
      lastUpdate := t1
      symbol := s
      isLiveMonitoring := false } with hE
  have hdata1 : cfg.data = hmaDataOf candles := by rw [hcfgE]
  have hrun1 : fetchAndCalculateHMA tz t1 (.ok raw) s cache0 =
      { result := .ok cfg, cache := cacheSet cache0 s E, fetched := true } := by
    rw [fetch_on_miss tz t1 _ s cache0 hmiss, hmp]
  have hElen : E.candles.length = candles.length := candlesWithHMA_length candles cfg
  have hget2 : cacheGet (cacheSet cache0 s E) s = some E := cacheGet_set_self cache0 s E
  have hrun2 : fetchAndCalculateHMA tz now2 fr2 s (cacheSet cache0 s E) =
      { result := .ok (cacheHitResult E), cache := cacheSet cache0 s E, fetched := false } :=
    fetch_on_hit tz now2 fr2 s _ E hget2
      (by rw [hElen]; simpa [REQUIRED_CANDLES] using hlen) hfresh
  have hr2i : ∀ i, (cacheHitResult E).data[i]? = candles[i]?.map fun c =>
      ({ timestamp := c.timestamp
         close := c.close
         hma := if 54 ≤ i then (cfg.data[i]?).bind HMAPoint.hma else none } : HMAPoint) := by
    intro i
    rw [cacheHitResult_data_getElem?, hE]
    dsimp only
    rw [candlesWithHMA_getElem?, Option.map_map]
    rfl
  have hr1i : ∀ i, cfg.data[i]? = candles[i]?.map fun c =>
      ({ timestamp := c.timestamp
         close := c.close
         hma := some (if 54 ≤ i then calculateHMAForPoint (closesOf candles) i 55 else 0) } :
        HMAPoint) := by
    intro i
    rw [hdata1, hmaDataOf_getElem?]
  refine ⟨cfg, cacheHitResult E, by rw [hrun1], by rw [hrun1],
    by rw [hrun1]; exact hrun2, by rw [hdata1, hmaDataOf_length], ?_, ?_, ?_, ?_, ?_, ?_, ?_⟩
  · rw [hcfgE]
    rfl
  · -- currentHMA
    have hn1 : candles.length - 1 < candles.length := by omega
    have hgetn : candles[candles.length - 1]? =
        some (candles.get ⟨candles.length - 1, hn1⟩) := List.getElem?_eq_getElem hn1
    have h54n : 54 ≤ candles.length - 1 := by omega
    have hlhs : (cacheHitResult E).currentHMA = (E.candles.getLast?).bind CandleH.hma := rfl
    rw [hlhs, List.getLast?_eq_getElem?, hElen, hE]
    dsimp only
    rw [candlesWithHMA_getElem?, hgetn]
    simp only [Option.map_some', Option.some_bind]
    rw [if_pos h54n, hr1i, hgetn]
    simp only [Option.map_some', Option.some_bind]
    rw [hcfgE]
    dsimp only
    rw [List.getLast?_eq_getElem?, hmaDataOf_length, hmaDataOf_getElem?, hgetn]
    simp only [Option.map_some', Option.some_bind, Option.getD_some]
  · rw [hdata1, hmaDataOf_length]
    have : (cacheHitResult E).data.length = E.candles.length := by
      rw [cacheHitResult]
      exact List.length_map _ _
    rw [this, hElen]
  · intro i
    rw [hr2i, hr1i, Option.map_map, Option.map_map]
    rfl
  · intro i
    rw [hr2i, hr1i, Option.map_map, Option.map_map]
    rfl
  · intro i h54
    rw [hr2i, hr1i, Option.map_map, Option.map_map]
    by_cases hi : i < candles.length
    · have hgeti : candles[i]? = some (candles.get ⟨i, hi⟩) := List.getElem?_eq_getElem hi
      rw [hgeti]
      simp only [Option.map_some', Function.comp_apply]
      rw [if_pos h54]
      simp only [Option.some_bind]
    · have hgeti : candles[i]? = none := List.getElem?_eq_none (by omega)
      rw [hgeti]
      rfl
  · intro i h54 hilen
    rw [hdata1, hmaDataOf_length] at hilen
    have hgeti : candles[i]? = some (candles.get ⟨i, hilen⟩) := List.getElem?_eq_getElem hilen
    constructor
    · rw [hr2i, hgeti]
      simp only [Option.map_some']
      rw [if_neg (by omega)]
    · rw [hr1i, hgeti]
      simp only [Option.map_some']
      rw [if_neg (by omega)]

/-- Synthetic raw history: 60 five-minute bars starting at 09:15 local
(minute-of-day 555), all prices 0. -/
def demoRaw : List RawTuple :=
  (List.range 60).map fun k =>
    { ts := 33300 + 300 * (k : Int), o := 0, h := 0, l := 0, c := 0, v := 0 }

/-- C2 counterexample: populate the cache for a symbol with 60 in-session
candles, then read it back 1 second later. The read is served from cache
(fetched = false), yet its data is not equal to the data of the compute
that populated the entry: at warm-up index 0 the served result carries
hma null while the populating compute returned hma 0. -/
theorem served_result_differs_counterexample :
    ∃ r1 r2,
      (fetchAndCalculateHMA 0 0 (.ok demoRaw) "SYM" []).result = .ok r1 ∧
      fetchAndCalculateHMA 0 1000 (.ok demoRaw) "SYM"
          (fetchAndCalculateHMA 0 0 (.ok demoRaw) "SYM" []).cache =
        { result := .ok r2
          cache := (fetchAndCalculateHMA 0 0 (.ok demoRaw) "SYM" []).cache
          fetched := false } ∧
      r2.data[0]?.map HMAPoint.hma = some none ∧
      r1.data[0]?.map HMAPoint.hma = some (some 0) := by
  have hlen : 60 ≤ (convertAndFilterTradingHoursCandles 0 demoRaw).length := by decide
  obtain ⟨r1, r2, h1, hf1, h2, hlen1, hper, hcur, hlen2, hts, hcl, hhma, hwarm⟩ :=
    cache_roundtrip_spec 0 0 1000 demoRaw "SYM" [] (.ok demoRaw) rfl (by decide) hlen
      (by norm_num)
  have h0 : 0 < r1.data.length := by omega
  obtain ⟨hw2, hw1⟩ := hwarm 0 (by omega) h0
  exact ⟨r1, r2, h1, h2, hw2, hw1⟩

/-- C4: fetchAndCalculateHMA serves from cache exactly when the entry is
fresh: with at least 60 candles stored, a read strictly before
lastUpdate + 5 minutes returns the cached result with no fetch; a read at
or after that instant takes the fetch path; an entry with fewer than 60
candles takes the fetch path at any read time. -/
theorem cache_freshness_boundary (tz now : Int) (fr : Except String (List RawTuple))
    (s : String) (cache : Cache) (e : CacheEntry)
    (hget : cacheGet cache s = some e) :
    (60 ≤ e.candles.length → now - e.lastUpdate < 5 * 60 * 1000 →
      fetchAndCalculateHMA tz now fr s cache =
        { result := .ok (cacheHitResult e), cache := cache, fetched := false }) ∧
    (60 ≤ e.candles.length → 5 * 60 * 1000 ≤ now - e.lastUpdate →
      (fetchAndCalculateHMA tz now fr s cache).fetched = true) ∧
    (e.candles.length < 60 →
      (fetchAndCalculateHMA tz now fr s cache).fetched = true) := by
  refine ⟨?_, ?_, ?_⟩
  · intro hlen hfresh
    exact fetch_on_hit tz now fr s cache e hget (by simpa [REQUIRED_CANDLES] using hlen) hfresh
  · intro hlen hstale
    rw [fetch_on_stale tz now fr s cache e hget (by intro hc; omega)]
    exact fetchMissPath_fetched tz now fr s cache
  · intro hshort
    rw [fetch_on_stale tz now fr s cache e hget
      (by intro hc; simp only [REQUIRED_CANDLES] at hc; omega)]
    exact fetchMissPath_fetched tz now fr s cache

/-- Entries for the C4 witness. -/
def dummyCandleH : CandleH :=
  { base := { timestamp := 0, totalMinutes := 555, o := 0, high := 0, low := 0,
              close := 0, volume := 0 }
    hma := none }

def entry60 : CacheEntry :=
  { candles := List.replicate 60 dummyCandleH, lastUpdate := 0, symbol := "S"
    isLiveMonitoring := false }

def entry59 : CacheEntry :=
  { candles := List.replicate 59 dummyCandleH, lastUpdate := 0, symbol := "S"
    isLiveMonitoring := false }

/-- C4 witness: for an entry written at T = 0 with 60 candles, a read at
T + 4m59s is served from cache and a read at T + 5m01s fetches; an entry
with 59 candles fetches even when read at its write instant. -/
theorem cache_freshness_boundary_witness :
    fetchAndCalculateHMA 0 299000 (.error "down") "S" [("S", entry60)] =
      { result := .ok (cacheHitResult entry60), cache := [("S", entry60)]
        fetched := false } ∧
    (fetchAndCalculateHMA 0 301000 (.error "down") "S" [("S", entry60)]).fetched = true ∧
    (fetchAndCalculateHMA 0 0 (.error "down") "S" [("S", entry59)]).fetched = true := by
  refine ⟨?_, ?_, ?_⟩
  · exact (cache_freshness_boundary 0 299000 (.error "down") "S" [("S", entry60)] entry60
      (by rfl)).1 (by rw [entry60]; simp) (by rw [entry60]; norm_num)
  · exact (cache_freshness_boundary 0 301000 (.error "down") "S" [("S", entry60)] entry60
      (by rfl)).2.1 (by rw [entry60]; simp) (by rw [entry60]; norm_num)
  · exact (cache_freshness_boundary 0 0 (.error "down") "S" [("S", entry59)] entry59
      (by rfl)).2.2 (by rw [entry59]; simp)

/-- C5 counterexample: evict (clearCache) on an empty cache with symbol "X"
returns true although no entry for "X" existed or was removed, so the
return value is not (present and removed). -/
theorem evict_return_counterexample :
    cacheGet ([] : Cache) "X" = none ∧ (clearCache ([] : Cache) "X").2 = true :=
  ⟨rfl, rfl⟩

/-- C5 amended: evict (clearCache) with a non-empty (truthy) symbol removes
the entry for that symbol if one is present, leaves every other symbol
unchanged, and returns true regardless of whether an entry existed; with
an empty (falsy) symbol it does nothing and returns false. After an evict
of a non-empty symbol the next fetchAndCalculateHMA for it takes the
fetch path. -/
theorem evict_behavior (cache : Cache) (s : String) :
    (s ≠ "" →
      (clearCache cache s).2 = true ∧
      cacheGet (clearCache cache s).1 s = none ∧
      (∀ t, t ≠ s → cacheGet (clearCache cache s).1 t = cacheGet cache t) ∧
      (∀ tz now fr, (fetchAndCalculateHMA tz now fr s (clearCache cache s).1).fetched = true)) ∧
    (s = "" → clearCache cache s = (cache, false)) := by
  constructor
  · intro hs
    rw [clearCache, if_pos hs]
    refine ⟨rfl, cacheGet_delete_self cache s, ?_, ?_⟩
    · intro t ht
      exact cacheGet_delete_other cache s t ht
    · intro tz now fr
      rw [fetch_on_miss tz now fr s _ (cacheGet_delete_self cache s)]
      exact fetchMissPath_fetched tz now fr s _
  · intro hs
    rw [clearCache, if_neg (by simp [hs])]

/-- C5 witness: evicting a present entry at a concrete one-entry cache. -/
theorem evict_behavior_witness :
    (clearCache [("A", entry60)] "A").2 = true ∧
    cacheGet (clearCache [("A", entry60)] "A").1 "A" = none ∧
    cacheGet (clearCache [("A", entry60)] "A").1 "B" = cacheGet [("A", entry60)] "B" ∧
    (fetchAndCalculateHMA 0 0 (.error "down") "A" (clearCache [("A", entry60)] "A").1).fetched
      = true := by
  obtain ⟨h1, h2, h3, h4⟩ := (evict_behavior [("A", entry60)] "A").1 (by decide)
  exact ⟨h1, h2, h3 "B" (by decide), h4 0 0 (.error "down")⟩

/-- C6: normalize (convertAndFilterTradingHoursCandles) returns exactly the
converted tuples whose local minute-of-day lies in [555, 930], in input
order (a sublist of the converted input, no re-sort): every output candle
is in the window, every in-window tuple appears in the output, and every
output candle comes from an input tuple. -/
theorem normalize_session_filter (tz : Int) (raw : List RawTuple) :
    convertAndFilterTradingHoursCandles tz raw =
      (raw.map (convertCandle tz)).filter inSession ∧
    (convertAndFilterTradingHoursCandles tz raw).Sublist (raw.map (convertCandle tz)) ∧
    (∀ c ∈ convertAndFilterTradingHoursCandles tz raw,
      555 ≤ c.totalMinutes ∧ c.totalMinutes ≤ 930) ∧
    (∀ r ∈ raw, 555 ≤ minuteOfDay tz r.ts → minuteOfDay tz r.ts ≤ 930 →
      convertCandle tz r ∈ convertAndFilterTradingHoursCandles tz raw) ∧
    (∀ c ∈ convertAndFilterTradingHoursCandles tz raw,
      ∃ r ∈ raw, c = convertCandle tz r ∧ c.totalMinutes = minuteOfDay tz r.ts) := by
  refine ⟨rfl, ?_, ?_, ?_, ?_⟩
  · exact List.filter_sublist _
  · intro c hc
    rw [convertAndFilterTradingHoursCandles, List.mem_filter] at hc
    have hses := hc.2
    rw [inSession] at hses
    simp only [MARKET_START_MINUTES, MARKET_END_MINUTES, Bool.and_eq_true,
      decide_eq_true_eq] at hses
    exact hses
  · intro r hr h1 h2
    rw [convertAndFilterTradingHoursCandles, List.mem_filter]
    refine ⟨List.mem_map_of_mem _ hr, ?_⟩
    rw [inSession]
    simp only [MARKET_START_MINUTES, MARKET_END_MINUTES, Bool.and_eq_true,
      decide_eq_true_eq]
    exact ⟨h1, h2⟩
  · intro c hc
    rw [convertAndFilterTradingHoursCandles, List.mem_filter, List.mem_map] at hc
    obtain ⟨⟨r, hr, rfl⟩, _⟩ := hc
    exact ⟨r, hr, rfl, rfl⟩

/-- C6 witness: the filter characterization at a concrete raw history. -/
theorem normalize_session_filter_witness :
    convertAndFilterTradingHoursCandles 0 demoRaw =
      (demoRaw.map (convertCandle 0)).filter inSession :=
  (normalize_session_filter 0 demoRaw).1

/-- C8: the session filter is idempotent: every candle produced by
normalize has minute-of-day within [555, 930], so filtering an
already-normalized sequence again keeps every candle. -/
theorem session_filter_idempotent (tz : Int) (raw : List RawTuple) :
    (convertAndFilterTradingHoursCandles tz raw).filter inSession =
      convertAndFilterTradingHoursCandles tz raw ∧
    ∀ c ∈ convertAndFilterTradingHoursCandles tz raw, inSession c = true := by
  have hall : ∀ c ∈ convertAndFilterTradingHoursCandles tz raw, inSession c = true := by
    intro c hc
    rw [convertAndFilterTradingHoursCandles, List.mem_filter] at hc
    exact hc.2
  exact ⟨List.filter_eq_self.mpr hall, hall⟩

/-- C8 witness: idempotence at a concrete raw history. -/
theorem session_filter_idempotent_witness :
    (convertAndFilterTradingHoursCandles 0 demoRaw).filter inSession =
      convertAndFilterTradingHoursCandles 0 demoRaw :=
  (session_filter_idempotent 0 demoRaw).1

/-- Freshness condition that triggers the cache-served early return. -/
def cacheServes (now : Int) (cache : Cache) (s : String) : Prop :=
  ∃ cached, cacheGet cache s = some cached ∧
    REQUIRED_CANDLES ≤ cached.candles.length ∧
    now - cached.lastUpdate < 5 * 60 * 1000

/-- C7: when the cache does not serve the request, a failing fetch makes
fetchAndCalculateHMA fail with the same error and leaves the cache
unchanged (no retry, fetched once); an empty fetched history and a
normalized count below 60 likewise fail and leave the cache unchanged. -/
theorem fetch_failure_leaves_cache (tz now : Int) (s : String) (cache : Cache)
    (fr : Except String (List RawTuple))
    (hmiss : ¬ cacheServes now cache s) :
    (∀ e, fr = .error e →
      fetchAndCalculateHMA tz now fr s cache =
        { result := .error e, cache := cache, fetched := true }) ∧
    (fr = .ok [] →
      fetchAndCalculateHMA tz now fr s cache =
        { result := .error ("No historical data available for " ++ s)
          cache := cache, fetched := true }) ∧
    (∀ raw, fr = .ok raw → raw ≠ [] →
      (convertAndFilterTradingHoursCandles tz raw).length < 60 →
      fetchAndCalculateHMA tz now fr s cache =
        { result := .error ("Insufficient data for HMA calculation. Need 60 candles, got "
            ++ toString (convertAndFilterTradingHoursCandles tz raw).length)
          cache := cache, fetched := true }) := by
  have hmp : fetchAndCalculateHMA tz now fr s cache = fetchMissPath tz now fr s cache := by
    cases hget : cacheGet cache s with
    | none => exact fetch_on_miss tz now fr s cache hget
    | some e =>
      refine fetch_on_stale tz now fr s cache e hget ?_
      intro hc
      exact hmiss ⟨e, hget, hc.1, hc.2⟩
  refine ⟨?_, ?_, ?_⟩
  · intro e he
    rw [hmp, he]
    exact fetchMissPath_fetchError tz now e s cache
  · intro he
    rw [hmp, he]
    exact fetchMissPath_noData tz now s cache
  · intro raw he hne hlen
    rw [hmp, he]
    exact fetchMissPath_tooFew tz now raw s cache hne
      (by simpa [REQUIRED_CANDLES] using hlen)

/-- C7 witness: fetch failure and empty history on an empty cache. -/
theorem fetch_failure_leaves_cache_witness :
    fetchAndCalculateHMA 0 0 (.error "network down") "S" [] =
      { result := .error "network down", cache := [], fetched := true } ∧
    fetchAndCalculateHMA 0 0 (.ok []) "S" [] =
      { result := .error "No historical data available for S", cache := []
        fetched := true } := by
  have hmiss : ¬ cacheServes 0 ([] : Cache) "S" := by
    rintro ⟨e, he, -⟩
    exact Option.noConfusion he
  constructor
  · exact (fetch_failure_leaves_cache 0 0 "S" [] (.error "network down") hmiss).1
      "network down" rfl
  · have h := (fetch_failure_leaves_cache 0 0 "S" [] (.ok []) hmiss).2.1 rfl
    simpa using h

/-- Invariant of a cache entry as stored by the module: at least
REQUIRED_CANDLES candles, hma null strictly below the warm-up boundary and
the computed series value from the boundary on. -/
def CacheEntryInv (e : CacheEntry) : Prop :=
  60 ≤ e.candles.length ∧
  ∀ i : Nat, i < e.candles.length →
    ((i < 54 → e.candles[i]?.map CandleH.hma = some none) ∧
     (54 ≤ i → e.candles[i]?.map CandleH.hma =
        some (some (calculateHMAForPoint (e.candles.map fun c => c.base.close) i 55))))

/-- Invariant of a cache state: every entry satisfies CacheEntryInv. -/
def CacheInv (c : Cache) : Prop :=
  ∀ s e, cacheGet c s = some e → CacheEntryInv e

lemma cacheInv_nil : CacheInv [] := by
  intro s e h
  exact Option.noConfusion h

lemma cacheInv_set (c : Cache) (s : String) (e : CacheEntry)
    (h : CacheInv c) (he : CacheEntryInv e) : CacheInv (cacheSet c s e) := by
  intro t et hget
  by_cases ht : t = s
  · rw [ht, cacheGet_set_self] at hget
    rw [← Option.some.inj hget]
    exact he
  · rw [cacheGet_set_other c s t e ht] at hget
    exact h t et hget

lemma cacheInv_clear (c : Cache) (s : String) (h : CacheInv c) :
    CacheInv (clearCache c s).1 := by
  rw [clearCache]
  split
  · intro t et hget
    by_cases ht : t = s
    · rw [ht, cacheGet_delete_self] at hget
      exact Option.noConfusion hget
    · rw [cacheGet_delete_other c s t ht] at hget
      exact h t et hget
  · exact h

lemma storedEntry_inv (now : Int) (s : String) (candles : List Candle) (cfg : HMAResult)
    (hlen : 60 ≤ candles.length) (hdata : cfg.data = hmaDataOf candles) :
    CacheEntryInv
      { candles := candlesWithHMA candles cfg, lastUpdate := now, symbol := s
        isLiveMonitoring := false } := by
  constructor
  · rw [candlesWithHMA_length]
    exact hlen
  · intro i hi
    rw [candlesWithHMA_length] at hi
    have hget : candles[i]? = some (candles.get ⟨i, hi⟩) := List.getElem?_eq_getElem hi
    constructor
    · intro h54
      show (candlesWithHMA candles cfg)[i]?.map CandleH.hma = some none
      rw [candlesWithHMA_getElem?, hget]
      simp only [Option.map_some']
      rw [if_neg (by omega)]
    · intro h54
      show (candlesWithHMA candles cfg)[i]?.map CandleH.hma =
        some (some (calculateHMAForPoint
          ((candlesWithHMA candles cfg).map fun c => c.base.close) i 55))
      rw [candlesWithHMA_closes, candlesWithHMA_getElem?, hget]
      simp only [Option.map_some']
      rw [if_pos h54, hdata, hmaDataOf_getElem?, hget]
      simp only [Option.map_some', Option.some_bind]
      rw [if_pos h54]

lemma missPath_cache_inv (tz now : Int) (fr : Except String (List RawTuple))
    (s : String) (c : Cache) (h : CacheInv c) :
    CacheInv (fetchMissPath tz now fr s c).cache := by
  rcases fr with e | raw
  · exact h
  · by_cases hraw : raw = []
    · rw [hraw, fetchMissPath_noData]
      exact h
    · by_cases hlen : (convertAndFilterTradingHoursCandles tz raw).length < REQUIRED_CANDLES
      · rw [fetchMissPath_tooFew tz now raw s c hraw hlen]
        exact h
      · obtain ⟨cfg, hcfg, hmp⟩ := fetchMissPath_success tz now raw s c hraw (by omega)
        rw [hmp]
        have h55 : 55 ≤ (convertAndFilterTradingHoursCandles tz raw).length := by
          simp only [REQUIRED_CANDLES] at hlen
          omega
        have hdata : cfg.data = hmaDataOf (convertAndFilterTradingHoursCandles tz raw) := by
          have h2 := calculateHMAFromCandles_ok now (convertAndFilterTradingHoursCandles tz raw) h55
          rw [hcfg] at h2
          rw [Except.ok.inj h2]
        exact cacheInv_set c s _ h
          (storedEntry_inv now s (convertAndFilterTradingHoursCandles tz raw) cfg
            (by simp only [REQUIRED_CANDLES] at hlen; omega) hdata)

lemma fetch_cache_inv (tz now : Int) (fr : Except String (List RawTuple))
    (s : String) (c : Cache) (h : CacheInv c) :
    CacheInv (fetchAndCalculateHMA tz now fr s c).cache := by
  cases hget : cacheGet c s with
  | none =>
    rw [fetch_on_miss tz now fr s c hget]
    exact missPath_cache_inv tz now fr s c h
  | some e =>
    by_cases hcond : REQUIRED_CANDLES ≤ e.candles.length ∧ now - e.lastUpdate < 5 * 60 * 1000
    · rw [fetch_on_hit tz now fr s c e hget hcond.1 hcond.2]
      exact h
    · rw [fetch_on_stale tz now fr s c e hget hcond]
      exact missPath_cache_inv tz now fr s c h

/-- C9: invariant of every reachable cache state: every entry stored by
fetchAndCalculateHMA holds at least 60 candles, carries hma null at every
index below 54, and carries the computed HMA series value at every index
from 54 on. -/
theorem reachable_cache_invariant (ops : List CacheOp) : CacheInv (runOps [] ops) := by
  suffices h : ∀ c, CacheInv c → CacheInv (runOps c ops) from h [] cacheInv_nil
  induction ops with
  | nil => intro c h; exact h
  | cons op rest ih =>
    intro c h
    cases op with
    | fetch tz now fr s =>
      exact ih _ (fetch_cache_inv tz now fr s c h)
    | evict s =>
      exact ih _ (cacheInv_clear c s h)

/-- C9 witness: the invariant after a concrete populate-then-evict run. -/
theorem reachable_cache_invariant_witness :
    CacheInv (runOps []
      [CacheOp.fetch 0 0 (.ok demoRaw) "SYM", CacheOp.evict "OTHER"]) :=
  reachable_cache_invariant [CacheOp.fetch 0 0 (.ok demoRaw) "SYM", CacheOp.evict "OTHER"]

/-- C2 amended: for a symbol populated by a successful compute and read
again within 5 minutes, the read is served from cache without any fetch
and returns a result with the same period, the same currentHMA, and the
same timestamps, closes and hma values at every index at or above 54 as
the populating compute; at the warm-up indices below 54, however, the
served result carries hma null where the populating compute returned 0
(and the result carries no explicit served-from-cache tag). -/
theorem cache_hit_matches_populating_compute (tz t1 now2 : Int) (raw : List RawTuple)
    (s : String) (cache0 : Cache) (fr2 : Except String (List RawTuple))
    (hmiss : cacheGet cache0 s = none)
    (hne : raw ≠ [])
    (hlen : 60 ≤ (convertAndFilterTradingHoursCandles tz raw).length)
    (hfresh : now2 - t1 < 5 * 60 * 1000) :
    ∃ r1 r2,
      (fetchAndCalculateHMA tz t1 (.ok raw) s cache0).result = .ok r1 ∧
      (fetchAndCalculateHMA tz t1 (.ok raw) s cache0).fetched = true ∧
      fetchAndCalculateHMA tz now2 fr2 s (fetchAndCalculateHMA tz t1 (.ok raw) s cache0).cache =
        { result := .ok r2
          cache := (fetchAndCalculateHMA tz t1 (.ok raw) s cache0).cache
          fetched := false } ∧
      r1.data.length = (convertAndFilterTradingHoursCandles tz raw).length ∧
      r2.period = r1.period ∧
      r2.currentHMA = r1.currentHMA ∧
      r2.data.length = r1.data.length ∧
      (∀ i : Nat, r2.data[i]?.map HMAPoint.timestamp = r1.data[i]?.map HMAPoint.timestamp) ∧
      (∀ i : Nat, r2.data[i]?.map HMAPoint.close = r1.data[i]?.map HMAPoint.close) ∧
      (∀ i : Nat, 54 ≤ i → r2.data[i]?.map HMAPoint.hma = r1.data[i]?.map HMAPoint.hma) ∧
      (∀ i : Nat, i < 54 → i < r1.data.length →
        r2.data[i]?.map HMAPoint.hma = some none ∧
        r1.data[i]?.map HMAPoint.hma = some (some 0)) :=
  cache_roundtrip_spec tz t1 now2 raw s cache0 fr2 hmiss hne hlen hfresh

/-- C2 witness: a concrete populate at time 0 followed by a read at
t = 200000 ms (3m20s), served from cache with equal period and
currentHMA. -/
theorem cache_hit_matches_populating_compute_witness :
    ∃ r1 r2,
      (fetchAndCalculateHMA 0 0 (.ok demoRaw) "SYM" []).result = .ok r1 ∧
      (fetchAndCalculateHMA 0 0 (.ok demoRaw) "SYM" []).fetched = true ∧
      fetchAndCalculateHMA 0 200000 (.error "down") "SYM"
          (fetchAndCalculateHMA 0 0 (.ok demoRaw) "SYM" []).cache =
        { result := .ok r2
          cache := (fetchAndCalculateHMA 0 0 (.ok demoRaw) "SYM" []).cache
          fetched := false } ∧
      r2.period = r1.period ∧
      r2.currentHMA = r1.currentHMA := by
  obtain ⟨r1, r2, h1, h2, h3, _, hper, hcur, _⟩ :=
    cache_hit_matches_populating_compute 0 0 200000 demoRaw "SYM" [] (.error "down")
      rfl (by decide) (by decide) (by norm_num)
  exact ⟨r1, r2, h1, h2, h3, hper, hcur⟩
